import Mathlib

/-!
Shallow embedding of the cryptowallet transaction engines.

The UTXO engine is `src/btc/v1/btc.service.ts` (`BtcServiceV1`): prior-output
resolution (`getPreviousTransactionHashAndOutputIndex`), the `send` pipeline
(build one-input/one-output transaction, settle the fee by overwriting an
output value, affordability check, broadcast with error mapping).

The account-model engine is `Web3Service` (`web3.service.ts`): `balance`,
`send` (coin and token branches) and `calculateEstimateGasFees`.

External collaborators (bitcoinjs-lib, web3, address validators, HTTP
explorers) are abstracted as environment fields: address-validity predicates,
the fetched transaction history, the serialized byte size of the built
transaction, balances, and the provider's broadcast response. Every network
interaction that the service performs is recorded, in order, in a trace of
`NetworkCall` / `Web3NetworkCall` values. JavaScript numbers are modelled as
exact rationals.
-/

namespace CryptoWallet

/-! ### UTXO (BTC) data model -/

/-- One output of a transaction as returned by the explorer
`GET /addrs/{address}/full` endpoint: its addresses and its satoshi value. -/
structure BtcOutput where
  addresses : List String
  value : ℚ
deriving DecidableEq, Repr

/-- One transaction of the fetched history: its hash and output list. -/
structure BtcFullTx where
  hash : String
  outputs : List BtcOutput
deriving DecidableEq, Repr

/-- An input of the transaction being built: `txb.addInput(hash, index)`. -/
structure TxIn where
  prevHash : String
  prevIndex : ℕ
deriving DecidableEq, Repr

/-- An output of the transaction being built: `txb.addOutput(address, satoshi)`. -/
structure TxOut where
  address : String
  value : ℚ
deriving DecidableEq, Repr

/-- The built transaction (`txb.build()`): its input and output lists. -/
structure BuiltTx where
  ins : List TxIn
  outs : List TxOut
deriving DecidableEq, Repr

/-- Modelled from the spec: `convertToSatoshi` lives in
`src/common/helper/helper.function.ts`, which is not among the provided
sources; the spec fixes the UTXO base-unit exponent at 8 decimals with a
symmetric, round-tripping conversion (spec section 8). -/
def convertToSatoshi (amount : ℚ) : ℚ := amount * 100000000

/-- Modelled from the spec: `convertFromSatoshi` lives in
`src/common/helper/helper.function.ts`, which is not among the provided
sources; the spec fixes the UTXO base-unit exponent at 8 decimals with a
symmetric, round-tripping conversion (spec section 8). -/
def convertFromSatoshi (sat : ℚ) : ℚ := sat / 100000000

/-- Error outcomes of `BtcServiceV1`, one constructor per distinct
`HttpException` message thrown by the service. -/
inductive BtcError
  /-- message `Incorrect recipient address` -/
  | incorrectRecipientAddress
  /-- message `No previous transactions found` -/
  | noPreviousTransactions
  /-- message `Previous output not found` -/
  | previousOutputNotFound
  /-- message `Output with index ... does not exist.`, carrying the index -/
  | outputIndexOutOfRange (idx : ℕ)
  /-- message `Insufficient coin balance` -/
  | insufficientBalance
  /-- message `Incorrect address` (thrown by the `balance` sub-call) -/
  | incorrectAddress
deriving DecidableEq, Repr

/-- `getPreviousTransactionHashAndOutputIndex` of `BtcServiceV1`: takes the
fetched history `data.txs` and the source address; errors when the history is
empty (`data.txs.length === 0`); otherwise takes the last history element
(`data.txs[data.txs.length - 1]`), searches its outputs for one whose
`addresses` include the source address (`outputs.find`), errors when none
matches, and returns the transaction hash with the matching output's index
(`outputs.indexOf` of the found element, i.e. the first matching index). -/
def getPreviousTransactionHashAndOutputIndex (history : List BtcFullTx)
    (address : String) : Except BtcError (String × ℕ) :=
  match history.getLast? with
  | none => .error .noPreviousTransactions
  | some previousTransaction =>
    match previousTransaction.outputs.findIdx?
        (fun output => output.addresses.contains address) with
    | none => .error .previousOutputNotFound
    | some i => .ok (previousTransaction.hash, i)

/-- The transaction constructed in `send`: exactly one input added via
`txb.addInput(previousTransactionHash, previousOutputIndex)` and exactly one
output added via `txb.addOutput(toAddress, convertToSatoshi(amount))`. -/
def buildTransaction (previousTransactionHash : String)
    (previousOutputIndex : ℕ) (toAddress : String) (amount : ℚ) : BuiltTx :=
  { ins := [⟨previousTransactionHash, previousOutputIndex⟩],
    outs := [⟨toAddress, convertToSatoshi amount⟩] }

/-- `builtTransaction.outs[previousOutputIndex].value = calculateFee`: replace
the value of the output at the given index, keeping its address; out-of-range
indices leave the transaction unchanged (in `send` a guard precedes this). -/
def setOutputValue (tx : BuiltTx) (idx : ℕ) (v : ℚ) : BuiltTx :=
  match tx.outs[idx]? with
  | some o => { tx with outs := tx.outs.set idx { o with value := v } }
  | none => tx

/-- Exact provider error text that triggers the soft outcome. -/
def mempoolConflictText : String :=
  "Invalid transaction. Error: txn-mempool-conflict"

/-- Soft-outcome message returned for the mempool-conflict rejection. -/
def incompleteTransactionMessage : String :=
  "You have an incomplete transaction. Wait until the previous transaction is completed"

/-- Result of a completed broadcast attempt: the success payload of the `map`
operator, or the `{status:false, message}` value built by `catchError`. -/
inductive SendResult
  /-- `{is_success_transaction:true, transaction_id, from, to, value, ...}` -/
  | success (transaction_id : String) (fromAddress : String)
      (toAddress : String) (value : ℚ)
  /-- `{status:false, message}` -/
  | failure (message : String)
deriving DecidableEq, Repr

/-- Whether a `SendResult` is the success payload. -/
def SendResult.isSuccess : SendResult → Bool
  | .success _ _ _ _ => true
  | .failure _ => false

/-- The `catchError` handler of `send`: the exact mempool-conflict error text
is softened to the fixed message; any other provider error text is passed
through verbatim as the `message` field. -/
def mapBroadcastError (errorMessage : String) : SendResult :=
  if errorMessage = mempoolConflictText then .failure incompleteTransactionMessage
  else .failure errorMessage

/-- One network interaction of the BTC `send` pipeline, in the order the
service performs them. The broadcast entry carries the settled transaction
whose hex serialization is posted. -/
inductive NetworkCall
  /-- `GET bitcoinfees.earn.com/api/v1/fees/recommended` (`calculateAverageFee`) -/
  | feeEstimator
  /-- `GET {blockcypher}/addrs/{address}/full` -/
  | explorerFullHistory
  /-- `GET {blockchair}/dashboards/address/{address}` (the `balance` sub-call) -/
  | balanceDashboard
  /-- `POST {blockchair}/push/transaction` with the serialized transaction -/
  | pushTransaction (payload : BuiltTx)
deriving DecidableEq, Repr

/-- Request body of the BTC `send` endpoint. `fee` is the optional per-byte
override; `none` models an absent field (JavaScript `undefined`, falsy). -/
structure SendBtcDto where
  private_key : String
  to_address : String
  amount : ℚ
  fee : Option ℚ
deriving Repr

/-- Environment abstracting the external collaborators of the BTC engine. -/
structure BtcEnv where
  /-- `getAddressFromPrivateKey(sendBtcDto.private_key)` (bitcoinjs-lib) -/
  derivedAddress : String
  /-- `validate` from bitcoin-address-validation -/
  validAddress : String → Bool
  /-- `hourFee` returned by the fee estimator -/
  estimatorFee : ℚ
  /-- `data.txs` returned by the explorer full-history endpoint -/
  history : List BtcFullTx
  /-- `builtTransaction.byteLength()` of the signed transaction -/
  txByteSize : ℚ
  /-- satoshi balance returned by the explorer dashboard for the source address -/
  balanceSat : ℚ
  /-- broadcast response: the new transaction hash, or the provider error text -/
  pushResult : Except String String

/-- `sendBtcDto.fee || (await this.calculateAverageFee())`: the caller's
override when it is truthy (present and nonzero), else the estimator's rate. -/
def resolvedFeePerByte (env : BtcEnv) (dto : SendBtcDto) : ℚ :=
  match dto.fee with
  | some f => if f = 0 then env.estimatorFee else f
  | none => env.estimatorFee

/-- Network calls issued while resolving the fee rate: the estimator is hit
exactly when the `fee` field is falsy (absent or zero). -/
def feeLookupCalls (dto : SendBtcDto) : List NetworkCall :=
  match dto.fee with
  | some f => if f = 0 then [.feeEstimator] else []
  | none => [.feeEstimator]

/-- The `send` method of `BtcServiceV1`, returning its outcome (a thrown
`HttpException` modelled as `.error`, a completed broadcast attempt as `.ok`)
together with the ordered trace of network calls performed. Mirrors the
source order: fee resolution (possibly calling the estimator) happens before
recipient-address validation; then prior-output resolution, transaction
build, fee computation `feePerByte * byteSize`, the output-index guard, the
output-value overwrite, the affordability check against the dashboard
balance, and finally the broadcast with its error mapping. -/
def sendBtc (env : BtcEnv) (dto : SendBtcDto) :
    Except BtcError SendResult × List NetworkCall :=
  let address := env.derivedAddress
  let feePerByte := resolvedFeePerByte env dto
  let callsFee := feeLookupCalls dto
  if env.validAddress dto.to_address then
    let callsHistory := callsFee ++ [.explorerFullHistory]
    match getPreviousTransactionHashAndOutputIndex env.history address with
    | .error e => (.error e, callsHistory)
    | .ok (previousTransactionHash, previousOutputIndex) =>
      let builtTransaction := buildTransaction previousTransactionHash
        previousOutputIndex dto.to_address dto.amount
      let transactionSize := env.txByteSize
      let calculateFee := feePerByte * transactionSize
      if builtTransaction.outs.length ≤ previousOutputIndex then
        (.error (.outputIndexOutOfRange previousOutputIndex), callsHistory)
      else
        let settled := setOutputValue builtTransaction previousOutputIndex calculateFee
        let totalFeePerOutput := calculateFee
        let totalFeePerInput := feePerByte * (builtTransaction.ins.length : ℚ)
        let totalFee := totalFeePerOutput + totalFeePerInput
        let totalPay := convertFromSatoshi totalFee + dto.amount
        if env.validAddress address then
          let callsBalance := callsHistory ++ [.balanceDashboard]
          let userBalance := convertFromSatoshi env.balanceSat
          if userBalance < totalPay then
            (.error .insufficientBalance, callsBalance)
          else
            let callsPush := callsBalance ++ [.pushTransaction settled]
            match env.pushResult with
            | .ok h =>
              (.ok (.success h address dto.to_address dto.amount), callsPush)
            | .error msg => (.ok (mapBroadcastError msg), callsPush)
        else (.error .incorrectAddress, callsHistory)
  else (.error .incorrectRecipientAddress, callsFee)

/-! ### Account-model (Web3) data model -/

/-- Error outcomes of `Web3Service`, one constructor per distinct failure. -/
inductive Web3Error
  /-- message `Incorrect recipient address` -/
  | incorrectRecipientAddress
  /-- message `Incorrect contract address` -/
  | incorrectContractAddress
  /-- message `Incorrect address` (`balance`) -/
  | incorrectAddress
  /-- the broadcast's `error` event, re-surfaced with the original message -/
  | sendFailed (message : String)
  /-- neither `coin` nor `token` was requested in `send`: `transaction` stays
  `undefined` and the external `signTransaction(undefined, key)` raises; the
  raised TypeError of the external library is abstracted by this constructor -/
  | noTransaction
deriving DecidableEq, Repr

/-- The unsigned transaction record built by `Web3Service.send`: the
native-value record `{from, nonce, gas, to, value, chainId}` of the coin
branch, or the contract-call record `{from, to: contract, gas, data}` of the
token branch; the encoded `transfer(to, amount)` call data is carried as its
two arguments (`dataTo`, `dataAmount`), the ABI byte encoding itself being
external. -/
inductive Web3Tx
  /-- coin branch record -/
  | coinTx (fromAddress : String) (nonce : ℕ) (gas : ℚ) (toAddress : String)
      (value : ℚ) (chainId : ℕ)
  /-- token branch record -/
  | tokenTx (fromAddress : String) (toAddress : String) (gas : ℕ)
      (dataTo : String) (dataAmount : String)
deriving DecidableEq, Repr

/-- One network interaction of `Web3Service`, in the order performed. The
broadcast entry carries the transaction record that was signed and sent. -/
inductive Web3NetworkCall
  /-- `web3.eth.getTransactionCount(address, latest)` -/
  | getTransactionCount
  /-- `web3.eth.getGasPrice()` -/
  | getGasPrice
  /-- `contract.methods.transfer(to, amount).estimateGas({from})` -/
  | estimateGasCall
  /-- `getContract.methods.decimals().call()` (`getContractDecimal`) -/
  | decimalsCall
  /-- `web3.eth.getBalance(address)` -/
  | getBalanceCall
  /-- `getContract.methods.balanceOf(address).call()` (`balanceCall`) -/
  | balanceOfCall
  /-- `web3.eth.sendSignedTransaction(raw)` with the signed record -/
  | sendSignedTransaction (tx : Web3Tx)
deriving DecidableEq, Repr

/-- The amount argument encoded into the token `transfer` call data, when the
record is the token branch's. -/
def Web3Tx.encodedAmount : Web3Tx → Option String
  | .coinTx _ _ _ _ _ _ => none
  | .tokenTx _ _ _ _ a => some a

/-- `sendWeb3Dto.amount * Math.pow(10, decimal)`: the human amount scaled to
the token's atomic unit. -/
def tokenAtomicAmount (amount : ℚ) (decimals : ℕ) : ℚ := amount * 10 ^ decimals

/-- Plain decimal rendering of a rational, mirroring
`Number.prototype.toLocaleString('fullwide', {useGrouping: false})` on the
exact values the engine produces: a nonnegative integer renders as its bare
decimal digit string (no grouping separators, no exponent). Values outside
that range fall back to the rational's own rendering, abstracting the
external floating-point formatter, which the claims do not touch. -/
def ratToPlainString (q : ℚ) : String :=
  if q.den = 1 then
    if 0 ≤ q.num then Nat.repr q.num.toNat else "-" ++ Nat.repr q.num.natAbs
  else toString q

/-- The string actually encoded as the token transfer amount:
`(sendWeb3Dto.amount * Math.pow(10, decimal)).toLocaleString('fullwide',
{useGrouping: false})`. -/
def tokenAtomicAmountString (amount : ℚ) (decimals : ℕ) : String :=
  ratToPlainString (tokenAtomicAmount amount decimals)

/-- Holds when a string is a bare digit string: no grouping separator and no
scientific-notation marker can occur in it. -/
def plainDigitString (s : String) : Bool := s.toList.all Char.isDigit

/-- Request body of the Web3 `send` endpoint. `gas_limit` is the optional
override (`none` models an absent field, whose JavaScript comparison
`undefined > 0` is false). -/
structure SendWeb3Dto where
  private_key : String
  to_address : String
  amount : ℚ
  type : String
  contract : String
  gas_limit : Option ℕ
deriving Repr

/-- Request body of the Web3 `balance` endpoint. -/
structure BalanceWeb3Dto where
  address : String
  type : String
  contract : String
deriving Repr

/-- Environment abstracting the external collaborators of the Web3 engine. -/
structure Web3Env where
  /-- `getAddressByPrivateKey(web3, private_key)` -/
  derivedAddress : String
  /-- `Web3.utils.isAddress` -/
  isAddr : String → Bool
  /-- `web3.eth.getTransactionCount(address, latest)` -/
  nonce : ℕ
  /-- `web3.eth.getGasPrice()` (wei) -/
  gasPrice : ℚ
  /-- the dry-run `estimateGas` result for the contract transfer -/
  estimateGas : ℕ
  /-- `decimals()` of the token contract -/
  decimals : ℕ
  /-- `web3.eth.getBalance(address)` (wei) -/
  coinBalanceWei : ℚ
  /-- `balanceOf(address)` raw token balance -/
  tokenBalanceRaw : ℚ
  /-- broadcast response: the receipt (abstracted to its id), or the error
  event's message -/
  sendSignedResult : Except String String

/-- The quote returned by `calculateEstimateGasFees`; `estimateGasFees` is
`none` when the source computes `fromWei(NaN)` (no `gas_limit` field at all:
`Number(undefined) * gasPrice` is NaN, and `gasFees` is never recomputed on
the estimate path). -/
structure GasFees where
  amount : String
  gasLimit : ℕ
  gasPrice : ℚ
  estimateGasFees : Option ℚ
deriving DecidableEq, Repr

/-- `calculateEstimateGasFees` of `Web3Service`: reads the gas price, and
either keeps a positive `gas_limit` override, or estimates gas via the
dry-run `transfer` call and resolves the limit as
`parseInt(String(estimateGas / 2)) + estimateGas`, i.e. `⌊estimate/2⌋ +
estimate`. `gasFees` is computed from the original `dto.gas_limit` before
any reassignment, so it reflects the override even when absent or zero. -/
def calculateEstimateGasFees (env : Web3Env) (amount : String)
    (dto : SendWeb3Dto) : GasFees × List Web3NetworkCall :=
  let gasPrice := env.gasPrice
  let gasFees : Option ℚ := dto.gas_limit.map (fun g => (g : ℚ) * gasPrice)
  match dto.gas_limit with
  | some g =>
    if 0 < g then
      ({ amount := amount, gasLimit := g, gasPrice := gasPrice,
         estimateGasFees := gasFees.map (fun x => x / 10 ^ 18) },
       [.getGasPrice])
    else
      ({ amount := amount, gasLimit := env.estimateGas / 2 + env.estimateGas,
         gasPrice := gasPrice,
         estimateGasFees := gasFees.map (fun x => x / 10 ^ 18) },
       [.getGasPrice, .estimateGasCall])
  | none =>
    ({ amount := amount, gasLimit := env.estimateGas / 2 + env.estimateGas,
       gasPrice := gasPrice, estimateGasFees := none },
     [.getGasPrice, .estimateGasCall])

/-- The `send` method of `Web3Service`, returning its outcome together with
the ordered trace of network calls. Mirrors the source: recipient-address
validation first (locally, no network call); then the coin branch (scale to
wei, fetch nonce, fixed 63000 gas fallback) or the token branch (validate
contract address, fetch decimals, encode the scaled amount, resolve gas via
`calculateEstimateGasFees`, build the contract-call record); then sign and
broadcast, resolving on the receipt event or rejecting on the error event. -/
def web3Send (env : Web3Env) (chainId : ℕ) (dto : SendWeb3Dto) :
    Except Web3Error String × List Web3NetworkCall :=
  let address := env.derivedAddress
  if env.isAddr dto.to_address then
    if dto.type = "coin" then
      let amount := dto.amount * 10 ^ 18
      let usedGasLimit : ℚ := match dto.gas_limit with
        | some g => if 0 < g then (g : ℚ) else 63000
        | none => 63000
      let tx := Web3Tx.coinTx address env.nonce usedGasLimit dto.to_address
        amount chainId
      match env.sendSignedResult with
      | .ok receipt =>
        (.ok receipt, [.getTransactionCount, .sendSignedTransaction tx])
      | .error m =>
        (.error (.sendFailed m), [.getTransactionCount, .sendSignedTransaction tx])
    else if dto.type = "token" then
      if env.isAddr dto.contract then
        let decimal := env.decimals
        let amount := tokenAtomicAmountString dto.amount decimal
        let gasResult := calculateEstimateGasFees env amount dto
        let tx := Web3Tx.tokenTx address dto.contract gasResult.1.gasLimit
          dto.to_address amount
        match env.sendSignedResult with
        | .ok receipt =>
          (.ok receipt, .decimalsCall :: gasResult.2 ++ [.sendSignedTransaction tx])
        | .error m =>
          (.error (.sendFailed m),
           .decimalsCall :: gasResult.2 ++ [.sendSignedTransaction tx])
      else (.error .incorrectContractAddress, [])
    else (.error .noTransaction, [])
  else (.error .incorrectRecipientAddress, [])

/-- Normalized result of the Web3 `balance` endpoint: `{status: true, data}`,
where `data` is `none` when the JavaScript `balance` variable was never
assigned (stayed `undefined`). -/
structure BalanceResult where
  status : Bool
  data : Option ℚ
deriving DecidableEq, Repr

/-- The `balance` method of `Web3Service`: validates the address, then
computes the coin balance (wei scaled by 10^18) when `type == 'coin'`, or the
token balance (raw scaled by `10^decimals`, after validating the contract
address) when `type == 'token'`; for any other `type` neither branch runs and
the unassigned `balance` is returned as `data`. -/
def web3Balance (env : Web3Env) (dto : BalanceWeb3Dto) :
    Except Web3Error BalanceResult × List Web3NetworkCall :=
  if env.isAddr dto.address then
    if dto.type = "coin" then
      (.ok ⟨true, some (env.coinBalanceWei / 10 ^ 18)⟩, [.getBalanceCall])
    else if dto.type = "token" then
      if env.isAddr dto.contract then
        (.ok ⟨true, some (env.tokenBalanceRaw / 10 ^ env.decimals)⟩,
         [.decimalsCall, .balanceOfCall])
      else (.error .incorrectContractAddress, [])
    else (.ok ⟨true, none⟩, [])
  else (.error .incorrectAddress, [])

/-! ### Concrete scenarios used to instantiate the theorems -/

/-- A concrete environment exercising the full happy path of the BTC send:
one prior transaction paying the source address at output index 0, a caller
fee override of 2 sat/byte, a 100-byte serialized transaction, an ample
balance, and an accepting broadcast endpoint. -/
def happyEnv : BtcEnv :=
  { derivedAddress := "src"
    validAddress := fun a => (a == "src") || (a == "dst")
    estimatorFee := 3
    history := [⟨"h1", [⟨["src"], 5000⟩]⟩]
    txByteSize := 100
    balanceSat := 1000000000000
    pushResult := .ok "txid" }

/-- The request paired with `happyEnv`: send 1 BTC to `dst`, fee override 2. -/
def happyDto : SendBtcDto := ⟨"pk", "dst", 1, some 2⟩

/-- A concrete environment whose prior output resolves to index 1: the last
history transaction pays the source address at output position 1, so the
out-of-range guard must fire. -/
def guardEnv : BtcEnv :=
  { derivedAddress := "src"
    validAddress := fun a => (a == "src") || (a == "dst")
    estimatorFee := 3
    history := [⟨"h2", [⟨["other"], 1000⟩, ⟨["src"], 2000⟩]⟩]
    txByteSize := 100
    balanceSat := 1000000000000
    pushResult := .ok "txid" }

/-- A concrete environment whose balance (3.5 BTC) covers the requested
amount plus the output fee (1 + 2 BTC) but not the code's larger total
(1 + 3 BTC): fee override 10^8 sat/byte, 2-byte transaction. -/
def thresholdEnv : BtcEnv :=
  { derivedAddress := "src"
    validAddress := fun a => (a == "src") || (a == "dst")
    estimatorFee := 3
    history := [⟨"h1", [⟨["src"], 5000⟩]⟩]
    txByteSize := 2
    balanceSat := 350000000
    pushResult := .ok "txid" }

/-- The request paired with `thresholdEnv`: send 1 BTC, fee override 10^8. -/
def thresholdDto : SendBtcDto := ⟨"pk", "dst", 1, some 100000000⟩

/-- A concrete environment whose broadcast is rejected with the exact
mempool-conflict error text. -/
def conflictEnv : BtcEnv :=
  { happyEnv with pushResult := .error mempoolConflictText }

/-- A concrete environment whose broadcast is rejected with an unrelated
provider error text. -/
def otherRejectEnv : BtcEnv :=
  { happyEnv with pushResult := .error "insufficient fee" }

/-- A concrete environment whose explorer reports an empty history. -/
def emptyHistoryEnv : BtcEnv := { happyEnv with history := [] }

/-- A concrete request with a malformed recipient address and no fee
override (the `fee` field absent, hence falsy). -/
def noFeeDto : SendBtcDto := ⟨"pk", "bad", 1, none⟩

/-- A concrete environment for the account-model engine: three known
addresses, nonce 7, gas price 5 wei, dry-run gas estimate 21001, token
decimals 6, and an accepting broadcast. -/
def web3EnvW : Web3Env :=
  { derivedAddress := "0xsrc"
    isAddr := fun a => (a == "0xdst") || (a == "0xcontract") || (a == "0xsrc")
    nonce := 7
    gasPrice := 5
    estimateGas := 21001
    decimals := 6
    coinBalanceWei := 1000
    tokenBalanceRaw := 500
    sendSignedResult := .ok "receipt1" }

/-- A concrete token-transfer request: human amount 3/2, no gas override. -/
def tokenDto : SendWeb3Dto := ⟨"pk", "0xdst", 3/2, "token", "0xcontract", none⟩

/-! ### Branch characterizations of `sendBtc` -/

theorem mem_feeLookupCalls {dto : SendBtcDto} {c : NetworkCall}
    (h : c ∈ feeLookupCalls dto) : c = .feeEstimator := by
  unfold feeLookupCalls at h
  cases hf : dto.fee with
  | none => rw [hf] at h; simpa using h
  | some f =>
    rw [hf] at h
    by_cases h0 : f = 0
    · simpa [h0] using h
    · simp [h0] at h

theorem sendBtc_invalid_recipient {env : BtcEnv} {dto : SendBtcDto}
    (hval : env.validAddress dto.to_address = false) :
    sendBtc env dto = (.error .incorrectRecipientAddress, feeLookupCalls dto) := by
  simp [sendBtc, hval]

theorem sendBtc_prev_error {env : BtcEnv} {dto : SendBtcDto} {e : BtcError}
    (hval : env.validAddress dto.to_address = true)
    (hprev : getPreviousTransactionHashAndOutputIndex env.history
      env.derivedAddress = .error e) :
    sendBtc env dto = (.error e, feeLookupCalls dto ++ [.explorerFullHistory]) := by
  simp [sendBtc, hval, hprev]

theorem sendBtc_index_out_of_range {env : BtcEnv} {dto : SendBtcDto}
    {ph : String} {i : ℕ}
    (hval : env.validAddress dto.to_address = true)
    (hprev : getPreviousTransactionHashAndOutputIndex env.history
      env.derivedAddress = .ok (ph, i))
    (hi : 1 ≤ i) :
    sendBtc env dto = (.error (.outputIndexOutOfRange i),
      feeLookupCalls dto ++ [.explorerFullHistory]) := by
  simp [sendBtc, hval, hprev, buildTransaction, hi]

theorem sendBtc_source_invalid {env : BtcEnv} {dto : SendBtcDto} {ph : String}
    (hval : env.validAddress dto.to_address = true)
    (hprev : getPreviousTransactionHashAndOutputIndex env.history
      env.derivedAddress = .ok (ph, 0))
    (hsrc : env.validAddress env.derivedAddress = false) :
    sendBtc env dto = (.error .incorrectAddress,
      feeLookupCalls dto ++ [.explorerFullHistory]) := by
  simp [sendBtc, hval, hprev, buildTransaction, hsrc]

theorem sendBtc_insufficient {env : BtcEnv} {dto : SendBtcDto} {ph : String}
    (hval : env.validAddress dto.to_address = true)
    (hprev : getPreviousTransactionHashAndOutputIndex env.history
      env.derivedAddress = .ok (ph, 0))
    (hsrc : env.validAddress env.derivedAddress = true)
    (hbal : convertFromSatoshi env.balanceSat <
      convertFromSatoshi (resolvedFeePerByte env dto * env.txByteSize +
        resolvedFeePerByte env dto) + dto.amount) :
    sendBtc env dto = (.error .insufficientBalance,
      feeLookupCalls dto ++ [.explorerFullHistory, .balanceDashboard]) := by
  simp [sendBtc, hval, hprev, buildTransaction, hsrc, hbal]

theorem sendBtc_broadcast_ok {env : BtcEnv} {dto : SendBtcDto} {ph h : String}
    (hval : env.validAddress dto.to_address = true)
    (hprev : getPreviousTransactionHashAndOutputIndex env.history
      env.derivedAddress = .ok (ph, 0))
    (hsrc : env.validAddress env.derivedAddress = true)
    (hbal : ¬ convertFromSatoshi env.balanceSat <
      convertFromSatoshi (resolvedFeePerByte env dto * env.txByteSize +
        resolvedFeePerByte env dto) + dto.amount)
    (hpush : env.pushResult = .ok h) :
    sendBtc env dto =
      (.ok (.success h env.derivedAddress dto.to_address dto.amount),
       feeLookupCalls dto ++ [.explorerFullHistory, .balanceDashboard,
         .pushTransaction ⟨[⟨ph, 0⟩],
           [⟨dto.to_address, resolvedFeePerByte env dto * env.txByteSize⟩]⟩]) := by
  simp [sendBtc, hval, hprev, buildTransaction, hsrc, hbal, hpush,
    setOutputValue, convertToSatoshi]

theorem sendBtc_broadcast_rejected {env : BtcEnv} {dto : SendBtcDto}
    {ph m : String}
    (hval : env.validAddress dto.to_address = true)
    (hprev : getPreviousTransactionHashAndOutputIndex env.history
      env.derivedAddress = .ok (ph, 0))
    (hsrc : env.validAddress env.derivedAddress = true)
    (hbal : ¬ convertFromSatoshi env.balanceSat <
      convertFromSatoshi (resolvedFeePerByte env dto * env.txByteSize +
        resolvedFeePerByte env dto) + dto.amount)
    (hpush : env.pushResult = .error m) :
    sendBtc env dto =
      (.ok (mapBroadcastError m),
       feeLookupCalls dto ++ [.explorerFullHistory, .balanceDashboard,
         .pushTransaction ⟨[⟨ph, 0⟩],
           [⟨dto.to_address, resolvedFeePerByte env dto * env.txByteSize⟩]⟩]) := by
  simp [sendBtc, hval, hprev, buildTransaction, hsrc, hbal, hpush,
    setOutputValue, convertToSatoshi]

theorem sendBtc_push_mem {env : BtcEnv} {dto : SendBtcDto} {tx : BuiltTx}
    (htx : NetworkCall.pushTransaction tx ∈ (sendBtc env dto).2) :
    ∃ ph, env.validAddress dto.to_address = true ∧
      getPreviousTransactionHashAndOutputIndex env.history
        env.derivedAddress = .ok (ph, 0) ∧
      tx = ⟨[⟨ph, 0⟩],
        [⟨dto.to_address, resolvedFeePerByte env dto * env.txByteSize⟩]⟩ := by
  by_cases hval : env.validAddress dto.to_address = true
  case neg =>
    rw [Bool.not_eq_true] at hval
    rw [sendBtc_invalid_recipient hval] at htx
    exact absurd (mem_feeLookupCalls htx) (by simp)
  case pos =>
    cases hprev : getPreviousTransactionHashAndOutputIndex env.history
        env.derivedAddress with
    | error e =>
      rw [sendBtc_prev_error hval hprev] at htx
      rcases List.mem_append.mp htx with hmem | hmem
      · exact absurd (mem_feeLookupCalls hmem) (by simp)
      · simp at hmem
    | ok pr =>
      obtain ⟨ph, i⟩ := pr
      rcases Nat.eq_zero_or_pos i with hi | hi
      · subst hi
        by_cases hsrc : env.validAddress env.derivedAddress = true
        case neg =>
          rw [Bool.not_eq_true] at hsrc
          rw [sendBtc_source_invalid hval hprev hsrc] at htx
          rcases List.mem_append.mp htx with hmem | hmem
          · exact absurd (mem_feeLookupCalls hmem) (by simp)
          · simp at hmem
        case pos =>
          by_cases hbal : convertFromSatoshi env.balanceSat <
              convertFromSatoshi (resolvedFeePerByte env dto * env.txByteSize +
                resolvedFeePerByte env dto) + dto.amount
          case pos =>
            rw [sendBtc_insufficient hval hprev hsrc hbal] at htx
            rcases List.mem_append.mp htx with hmem | hmem
            · exact absurd (mem_feeLookupCalls hmem) (by simp)
            · simp at hmem
          case neg =>
            cases hpush : env.pushResult with
            | ok h =>
              rw [sendBtc_broadcast_ok hval hprev hsrc hbal hpush] at htx
              rcases List.mem_append.mp htx with hmem | hmem
              · exact absurd (mem_feeLookupCalls hmem) (by simp)
              · simp at hmem
                exact ⟨ph, hval, rfl, hmem⟩
            | error m =>
              rw [sendBtc_broadcast_rejected hval hprev hsrc hbal hpush] at htx
              rcases List.mem_append.mp htx with hmem | hmem
              · exact absurd (mem_feeLookupCalls hmem) (by simp)
              · simp at hmem
                exact ⟨ph, hval, rfl, hmem⟩
      · rw [sendBtc_index_out_of_range hval hprev hi] at htx
        rcases List.mem_append.mp htx with hmem | hmem
        · exact absurd (mem_feeLookupCalls hmem) (by simp)
        · simp at hmem

theorem happyEnv_run :
    sendBtc happyEnv happyDto =
      (.ok (.success "txid" "src" "dst" 1),
       [.explorerFullHistory, .balanceDashboard,
        .pushTransaction ⟨[⟨"h1", 0⟩], [⟨"dst", 200⟩]⟩]) := by
  simp [sendBtc, happyEnv, happyDto, resolvedFeePerByte, feeLookupCalls,
    getPreviousTransactionHashAndOutputIndex, buildTransaction, setOutputValue,
    convertToSatoshi, convertFromSatoshi]
  norm_num

/-! ### Claims -/

/-- C1: in the UTXO send, after building and signing the
one-input/one-output transaction, the fee is settled by overwriting
(replacing, not reducing or adding to) the value of the output positioned at
the same index as the consumed input with the computed fee
`feePerByte × byteSize`; in particular, when the input index is 0, the single
created output's value ends up equal to `feePerByte × byteSize`. First
conjunct: the settlement write replaces the targeted output's value outright,
keeping its address, whatever value it held. Second conjunct: every
transaction that reaches the push endpoint has exactly one input and its
single output's value is exactly `feePerByte × byteSize`, independent of the
requested amount. -/
theorem btc_send_fee_settlement_overwrites_output :
    (∀ (built : BuiltTx) (idx : ℕ) (v : ℚ) (o : TxOut),
        built.outs[idx]? = some o →
        ((setOutputValue built idx v).outs)[idx]? = some ⟨o.address, v⟩) ∧
    (∀ (env : BtcEnv) (dto : SendBtcDto) (tx : BuiltTx),
        NetworkCall.pushTransaction tx ∈ (sendBtc env dto).2 →
        tx.ins.length = 1 ∧
        tx.outs = [⟨dto.to_address,
          resolvedFeePerByte env dto * env.txByteSize⟩]) := by
  constructor
  · intro built idx v o h
    have hlt : idx < built.outs.length := (List.getElem?_eq_some.mp h).1
    unfold setOutputValue
    rw [h]
    simp [List.getElem?_set_self hlt]
  · intro env dto tx htx
    obtain ⟨ph, _, _, rfl⟩ := sendBtc_push_mem htx
    simp

/-- Witness for C1 on the happy-path scenario: the settled output holds
exactly the fee `2 × 100 = 200` satoshi in place of the converted amount. -/
theorem btc_send_fee_settlement_overwrites_output_witness :
    ((setOutputValue (buildTransaction "h1" 0 "dst" 1) 0 200).outs)[0]? =
      some ⟨"dst", 200⟩ ∧
    ((⟨[⟨"h1", 0⟩], [⟨"dst", 200⟩]⟩ : BuiltTx).ins.length = 1 ∧
     (⟨[⟨"h1", 0⟩], [⟨"dst", 200⟩]⟩ : BuiltTx).outs =
       [⟨"dst", resolvedFeePerByte happyEnv happyDto * happyEnv.txByteSize⟩]) := by
  constructor
  · exact btc_send_fee_settlement_overwrites_output.1
      (buildTransaction "h1" 0 "dst" 1) 0 200 ⟨"dst", convertToSatoshi 1⟩
      (by simp [buildTransaction])
  · exact btc_send_fee_settlement_overwrites_output.2 happyEnv happyDto
      ⟨[⟨"h1", 0⟩], [⟨"dst", 200⟩]⟩ (by rw [happyEnv_run]; simp)

theorem guardEnv_prev :
    getPreviousTransactionHashAndOutputIndex guardEnv.history "src" =
      .ok ("h2", 1) := by
  simp [getPreviousTransactionHashAndOutputIndex, guardEnv,
    List.findIdx?_cons, List.findIdx?_succ]

/-- C9: the built transaction always has exactly one output, so whenever the
resolved prior-output index is at least 1 the out-of-range guard fires and
the send fails before any broadcast; a broadcast can only occur when the
resolved prior-output index is 0, and then the settlement write is in
bounds. First conjunct: the built transaction has exactly one output. Second
conjunct: with a resolved index ≥ 1 the send fails with the out-of-range
error and nothing is pushed. Third conjunct: any pushed transaction comes
from a resolution at index 0, and its output list is non-empty so the
index-0 overwrite was in bounds. -/
theorem btc_send_output_index_guard :
    (∀ (ph toAddr : String) (i : ℕ) (amt : ℚ),
        (buildTransaction ph i toAddr amt).outs.length = 1) ∧
    (∀ (env : BtcEnv) (dto : SendBtcDto) (ph : String) (i : ℕ),
        env.validAddress dto.to_address = true →
        getPreviousTransactionHashAndOutputIndex env.history
          env.derivedAddress = .ok (ph, i) →
        1 ≤ i →
        (sendBtc env dto).1 = .error (.outputIndexOutOfRange i) ∧
        ∀ tx, NetworkCall.pushTransaction tx ∉ (sendBtc env dto).2) ∧
    (∀ (env : BtcEnv) (dto : SendBtcDto) (tx : BuiltTx),
        NetworkCall.pushTransaction tx ∈ (sendBtc env dto).2 →
        (∃ ph, getPreviousTransactionHashAndOutputIndex env.history
          env.derivedAddress = .ok (ph, 0)) ∧ 0 < tx.outs.length) := by
  refine ⟨fun ph toAddr i amt => by simp [buildTransaction], ?_, ?_⟩
  · intro env dto ph i hval hprev hi
    rw [sendBtc_index_out_of_range hval hprev hi]
    refine ⟨rfl, ?_⟩
    intro tx hmem
    rcases List.mem_append.mp hmem with hmem | hmem
    · exact absurd (mem_feeLookupCalls hmem) (by simp)
    · simp at hmem
  · intro env dto tx htx
    obtain ⟨ph, _, hprev, rfl⟩ := sendBtc_push_mem htx
    exact ⟨⟨ph, hprev⟩, by simp⟩

/-- Witness for C9: in `guardEnv` the prior output resolves to index 1, the
send fails with the out-of-range error, and no push call appears. -/
theorem btc_send_output_index_guard_witness :
    (buildTransaction "h2" 1 "dst" 1).outs.length = 1 ∧
    (sendBtc guardEnv ⟨"pk", "dst", 1, some 2⟩).1 =
      .error (.outputIndexOutOfRange 1) ∧
    ∀ tx, NetworkCall.pushTransaction tx ∉
      (sendBtc guardEnv ⟨"pk", "dst", 1, some 2⟩).2 := by
  refine ⟨btc_send_output_index_guard.1 "h2" "dst" 1 1, ?_⟩
  exact btc_send_output_index_guard.2.1 guardEnv ⟨"pk", "dst", 1, some 2⟩ "h2" 1
    (by simp [guardEnv]) guardEnv_prev (by norm_num)

theorem thresholdEnv_run :
    sendBtc thresholdEnv thresholdDto =
      (.error .insufficientBalance,
       [.explorerFullHistory, .balanceDashboard]) := by
  simp [sendBtc, thresholdEnv, thresholdDto, resolvedFeePerByte, feeLookupCalls,
    getPreviousTransactionHashAndOutputIndex, buildTransaction, setOutputValue,
    convertToSatoshi, convertFromSatoshi]
  norm_num

theorem thresholdEnv_prev :
    getPreviousTransactionHashAndOutputIndex thresholdEnv.history
      thresholdEnv.derivedAddress = .ok ("h1", 0) := by
  simp [thresholdEnv, getPreviousTransactionHashAndOutputIndex,
    List.findIdx?_cons]

/-- C2 counterexample: in `thresholdEnv` the requested amount plus the fee in
human units does NOT exceed the balance (1 + 2 ≤ 3.5), yet the send still
fails with the insufficient-balance error and performs no push: the code
compares against `fee + feePerByte × inputCount`, not against the fee alone,
so the claimed characterization of the compared total is false. -/
theorem btc_send_balance_check_counterexample :
    thresholdDto.amount + convertFromSatoshi (resolvedFeePerByte thresholdEnv
      thresholdDto * thresholdEnv.txByteSize) ≤
      convertFromSatoshi thresholdEnv.balanceSat ∧
    (sendBtc thresholdEnv thresholdDto).1 = .error .insufficientBalance ∧
    ∀ tx, NetworkCall.pushTransaction tx ∉
      (sendBtc thresholdEnv thresholdDto).2 := by
  refine ⟨by norm_num [thresholdEnv, thresholdDto, resolvedFeePerByte,
    convertFromSatoshi], ?_, ?_⟩
  · rw [thresholdEnv_run]
  · rw [thresholdEnv_run]
    intro tx hmem
    simp at hmem

/-- C2 (amended): once the run reaches the affordability check, the total
obligation compared against the balance is `feePerByte × byteSize +
feePerByte × 1` (the settled fee plus the per-input component for the single
input) converted to human units, plus the requested amount: the send fails
with the insufficient-balance error exactly when the balance falls below
that total, and then nothing is pushed; and whenever the requested amount
plus the fee (converted to human units) exceeds the balance, for a
nonnegative fee rate, it still fails as the original claim states, since the
compared total is at least that. -/
theorem btc_send_insufficient_balance_threshold :
    ∀ (env : BtcEnv) (dto : SendBtcDto) (ph : String),
      env.validAddress dto.to_address = true →
      getPreviousTransactionHashAndOutputIndex env.history
        env.derivedAddress = .ok (ph, 0) →
      env.validAddress env.derivedAddress = true →
      (((sendBtc env dto).1 = .error .insufficientBalance) ↔
        convertFromSatoshi env.balanceSat <
          convertFromSatoshi (resolvedFeePerByte env dto * env.txByteSize +
            resolvedFeePerByte env dto * 1) + dto.amount) ∧
      (convertFromSatoshi env.balanceSat <
          convertFromSatoshi (resolvedFeePerByte env dto * env.txByteSize +
            resolvedFeePerByte env dto * 1) + dto.amount →
        ∀ tx, NetworkCall.pushTransaction tx ∉ (sendBtc env dto).2) ∧
      (0 ≤ resolvedFeePerByte env dto →
        convertFromSatoshi env.balanceSat <
          convertFromSatoshi (resolvedFeePerByte env dto * env.txByteSize) +
            dto.amount →
        (sendBtc env dto).1 = .error .insufficientBalance) := by
  intro env dto ph hval hprev hsrc
  rw [mul_one]
  have hiff : ((sendBtc env dto).1 = .error .insufficientBalance) ↔
      convertFromSatoshi env.balanceSat <
        convertFromSatoshi (resolvedFeePerByte env dto * env.txByteSize +
          resolvedFeePerByte env dto) + dto.amount := by
    constructor
    · intro hres
      by_contra hbal
      cases hpush : env.pushResult with
      | ok h =>
        rw [sendBtc_broadcast_ok hval hprev hsrc hbal hpush] at hres
        simp at hres
      | error m =>
        rw [sendBtc_broadcast_rejected hval hprev hsrc hbal hpush] at hres
        simp [mapBroadcastError] at hres
    · intro hbal
      rw [sendBtc_insufficient hval hprev hsrc hbal]
  refine ⟨hiff, ?_, ?_⟩
  · intro hbal tx hmem
    rw [sendBtc_insufficient hval hprev hsrc hbal] at hmem
    rcases List.mem_append.mp hmem with hmem | hmem
    · exact absurd (mem_feeLookupCalls hmem) (by simp)
    · simp at hmem
  · intro hf hbal
    apply hiff.mpr
    have hmono : convertFromSatoshi (resolvedFeePerByte env dto *
        env.txByteSize) ≤ convertFromSatoshi (resolvedFeePerByte env dto *
        env.txByteSize + resolvedFeePerByte env dto) := by
      unfold convertFromSatoshi
      apply div_le_div_of_nonneg_right ?_ (by norm_num)
      linarith
    linarith

/-- Witness for the amended C2 at the `thresholdEnv` scenario. -/
theorem btc_send_insufficient_balance_threshold_witness :
    (((sendBtc thresholdEnv thresholdDto).1 = .error .insufficientBalance) ↔
      convertFromSatoshi thresholdEnv.balanceSat <
        convertFromSatoshi (resolvedFeePerByte thresholdEnv thresholdDto *
          thresholdEnv.txByteSize + resolvedFeePerByte thresholdEnv
            thresholdDto * 1) + thresholdDto.amount) ∧
    (convertFromSatoshi thresholdEnv.balanceSat <
        convertFromSatoshi (resolvedFeePerByte thresholdEnv thresholdDto *
          thresholdEnv.txByteSize + resolvedFeePerByte thresholdEnv
            thresholdDto * 1) + thresholdDto.amount →
      ∀ tx, NetworkCall.pushTransaction tx ∉
        (sendBtc thresholdEnv thresholdDto).2) ∧
    (0 ≤ resolvedFeePerByte thresholdEnv thresholdDto →
      convertFromSatoshi thresholdEnv.balanceSat <
        convertFromSatoshi (resolvedFeePerByte thresholdEnv thresholdDto *
          thresholdEnv.txByteSize) + thresholdDto.amount →
      (sendBtc thresholdEnv thresholdDto).1 = .error .insufficientBalance) :=
  btc_send_insufficient_balance_threshold thresholdEnv thresholdDto "h1"
    (by simp [thresholdEnv, thresholdDto]) thresholdEnv_prev
    (by simp [thresholdEnv])

/-- C3: a broadcast rejection whose provider error text is exactly
`Invalid transaction. Error: txn-mempool-conflict` yields the soft outcome
with success false and the fixed incomplete-transaction message, and every
other broadcast rejection yields a failure outcome whose message field
carries the provider's error text verbatim; in both cases the returned
outcome is not the success payload. -/
theorem btc_send_broadcast_error_mapping :
    ∀ (env : BtcEnv) (dto : SendBtcDto) (ph m : String),
      env.validAddress dto.to_address = true →
      getPreviousTransactionHashAndOutputIndex env.history
        env.derivedAddress = .ok (ph, 0) →
      env.validAddress env.derivedAddress = true →
      ¬ convertFromSatoshi env.balanceSat <
        convertFromSatoshi (resolvedFeePerByte env dto * env.txByteSize +
          resolvedFeePerByte env dto) + dto.amount →
      env.pushResult = .error m →
      (sendBtc env dto).1 = .ok (.failure
        (if m = "Invalid transaction. Error: txn-mempool-conflict"
         then "You have an incomplete transaction. Wait until the previous transaction is completed"
         else m)) ∧
      ∀ r, (sendBtc env dto).1 = .ok r → r.isSuccess = false := by
  intro env dto ph m hval hprev hsrc hbal hpush
  rw [sendBtc_broadcast_rejected hval hprev hsrc hbal hpush]
  constructor
  · by_cases hm : m = "Invalid transaction. Error: txn-mempool-conflict" <;>
      simp [mapBroadcastError, mempoolConflictText,
        incompleteTransactionMessage, hm]
  · intro r hr
    simp only [Except.ok.injEq] at hr
    subst hr
    unfold mapBroadcastError
    split <;> rfl

/-- Witness for C3: the conflict text is softened, the unrelated text is
passed through verbatim. -/
theorem btc_send_broadcast_error_mapping_witness :
    ((sendBtc conflictEnv happyDto).1 = .ok (.failure
      "You have an incomplete transaction. Wait until the previous transaction is completed") ∧
     (sendBtc otherRejectEnv happyDto).1 =
       .ok (.failure "insufficient fee")) ∧
    ∀ r, (sendBtc conflictEnv happyDto).1 = .ok r → r.isSuccess = false := by
  have h1 := btc_send_broadcast_error_mapping conflictEnv happyDto "h1"
    mempoolConflictText (by simp [conflictEnv, happyEnv, happyDto])
    (by simp [conflictEnv, happyEnv, getPreviousTransactionHashAndOutputIndex,
      List.findIdx?_cons])
    (by simp [conflictEnv, happyEnv])
    (by norm_num [conflictEnv, happyEnv, happyDto, resolvedFeePerByte,
      convertFromSatoshi])
    rfl
  have h2 := btc_send_broadcast_error_mapping otherRejectEnv happyDto "h1"
    "insufficient fee" (by simp [otherRejectEnv, happyEnv, happyDto])
    (by simp [otherRejectEnv, happyEnv,
      getPreviousTransactionHashAndOutputIndex, List.findIdx?_cons])
    (by simp [otherRejectEnv, happyEnv])
    (by norm_num [otherRejectEnv, happyEnv, happyDto, resolvedFeePerByte,
      convertFromSatoshi])
    rfl
  refine ⟨⟨?_, ?_⟩, h1.2⟩
  · have := h1.1
    simpa [mempoolConflictText] using this
  · have := h2.1
    simpa using this

/-- Characterization of `List.findIdx?`: it returns `some i` exactly when the
element at position `i` satisfies the predicate and every earlier element
fails it — the index of the first match, mirroring
`outputs.indexOf(outputs.find(...))`. -/
theorem findIdx?_some_char {α : Type _} (p : α → Bool) (l : List α) (i : ℕ) :
    l.findIdx? p = some i ↔
      (∃ a, l[i]? = some a ∧ p a = true) ∧
      ∀ j, j < i → ∀ a, l[j]? = some a → p a = false := by
  induction l generalizing i with
  | nil => simp
  | cons x xs ih =>
    rw [List.findIdx?_cons]
    by_cases hx : p x
    · simp only [hx, if_true]
      constructor
      · intro h
        injection h with h
        subst h
        exact ⟨⟨x, by simp, hx⟩, fun j hj a ha => absurd hj (by omega)⟩
      · rintro ⟨⟨a, ha, hpa⟩, hmin⟩
        cases i with
        | zero => rfl
        | succ n =>
          have := hmin 0 (by omega) x (by simp)
          rw [hx] at this
          exact absurd this (by simp)
    · rw [if_neg hx, List.findIdx?_succ]
      rw [Bool.not_eq_true] at hx
      constructor
      · intro h
        rcases Option.map_eq_some'.mp h with ⟨n, hn, rfl⟩
        rcases (ih n).mp hn with ⟨⟨a, ha, hpa⟩, hmin⟩
        refine ⟨⟨a, by simpa using ha, hpa⟩, ?_⟩
        intro j hj b hb
        cases j with
        | zero =>
          simp only [List.getElem?_cons_zero, Option.some.injEq] at hb
          subst hb
          exact hx
        | succ m =>
          exact hmin m (by omega) b (by simpa using hb)
      · rintro ⟨⟨a, ha, hpa⟩, hmin⟩
        cases i with
        | zero =>
          simp only [List.getElem?_cons_zero, Option.some.injEq] at ha
          subst ha
          rw [hpa] at hx
          exact absurd hx (by simp)
        | succ n =>
          have hxs : xs.findIdx? p = some n := (ih n).mpr
            ⟨⟨a, by simpa using ha, hpa⟩,
             fun j hj b hb => hmin (j + 1) (by omega) b (by simpa using hb)⟩
          rw [hxs]
          rfl

theorem getPrev_last (history : List BtcFullTx) (addr : String)
    (t : BtcFullTx) (hl : history.getLast? = some t) :
    getPreviousTransactionHashAndOutputIndex history addr =
      match t.outputs.findIdx?
          (fun output => output.addresses.contains addr) with
      | none => .error .previousOutputNotFound
      | some i => .ok (t.hash, i) := by
  unfold getPreviousTransactionHashAndOutputIndex
  rw [hl]

/-- C4: the spendable prior output is resolved from the fetched transaction
history by selecting the most recent transaction — the one the history list's
last position holds, per the source's `data.txs[data.txs.length - 1]` — and
the returned reference is exactly that transaction's hash together with the
index of the first output in its output list whose addresses contain the
source address: resolution succeeds with `(ph, i)` precisely when the last
history entry has hash `ph`, its output at position `i` contains the source
address, and no earlier output does. -/
theorem btc_prior_output_resolution :
    ∀ (history : List BtcFullTx) (addr ph : String) (i : ℕ),
      getPreviousTransactionHashAndOutputIndex history addr = .ok (ph, i) ↔
      ∃ lastTx, history.getLast? = some lastTx ∧ ph = lastTx.hash ∧
        (∃ o, lastTx.outputs[i]? = some o ∧
          o.addresses.contains addr = true) ∧
        ∀ j, j < i → ∀ o, lastTx.outputs[j]? = some o →
          o.addresses.contains addr = false := by
  intro history addr ph i
  constructor
  · intro h
    cases hl : history.getLast? with
    | none =>
      unfold getPreviousTransactionHashAndOutputIndex at h
      rw [hl] at h
      exact absurd h (by simp)
    | some t =>
      rw [getPrev_last history addr t hl] at h
      cases hf : t.outputs.findIdx?
          (fun output => output.addresses.contains addr) with
      | none => rw [hf] at h; exact absurd h (by simp)
      | some n =>
        rw [hf] at h
        simp only [Except.ok.injEq, Prod.mk.injEq] at h
        obtain ⟨rfl, rfl⟩ := h
        rcases (findIdx?_some_char _ _ _).mp hf with ⟨hex, hmin⟩
        exact ⟨t, rfl, rfl, hex, hmin⟩
  · rintro ⟨t, hl, rfl, hex, hmin⟩
    rw [getPrev_last history addr t hl,
      (findIdx?_some_char _ _ _).mpr ⟨hex, hmin⟩]

/-- Witness for C4: a history whose last transaction pays the source address
at output position 1 resolves to that hash and index. -/
theorem btc_prior_output_resolution_witness :
    getPreviousTransactionHashAndOutputIndex
      [⟨"h2", [⟨["other"], 1000⟩, ⟨["src"], 2000⟩]⟩] "src" = .ok ("h2", 1) :=
  (btc_prior_output_resolution _ "src" "h2" 1).mpr
    ⟨⟨"h2", [⟨["other"], 1000⟩, ⟨["src"], 2000⟩]⟩, by simp, rfl,
     ⟨⟨["src"], 2000⟩, by simp, by simp⟩,
     by
       intro j hj o ho
       have hj0 : j = 0 := Nat.lt_one_iff.mp hj
       subst hj0
       simp only [List.getElem?_cons_zero, Option.some.injEq] at ho
       subst ho
       simp⟩

/-- C5: prior-output resolution fails with the no-previous-transactions
error exactly when the fetched history is empty, and fails with the
previous-output-not-found error exactly when the selected (last) history
transaction has no output whose addresses contain the source address; in
both failure cases the send returns that error and no push call is made. -/
theorem btc_prior_output_failure_modes :
    (∀ (history : List BtcFullTx) (addr : String),
        getPreviousTransactionHashAndOutputIndex history addr =
          .error .noPreviousTransactions ↔ history = []) ∧
    (∀ (history : List BtcFullTx) (addr : String) (lastTx : BtcFullTx),
        history.getLast? = some lastTx →
        (getPreviousTransactionHashAndOutputIndex history addr =
          .error .previousOutputNotFound ↔
         ∀ o ∈ lastTx.outputs, o.addresses.contains addr = false)) ∧
    (∀ (env : BtcEnv) (dto : SendBtcDto) (e : BtcError),
        env.validAddress dto.to_address = true →
        getPreviousTransactionHashAndOutputIndex env.history
          env.derivedAddress = .error e →
        (sendBtc env dto).1 = .error e ∧
        ∀ tx, NetworkCall.pushTransaction tx ∉ (sendBtc env dto).2) := by
  refine ⟨?_, ?_, ?_⟩
  · intro history addr
    cases hl : history.getLast? with
    | none =>
      have h0 : history = [] := List.getLast?_eq_none_iff.mp hl
      subst h0
      simp [getPreviousTransactionHashAndOutputIndex]
    | some t =>
      have hne : history ≠ [] := by
        intro h0
        subst h0
        simp at hl
      rw [getPrev_last history addr t hl]
      cases hf : t.outputs.findIdx?
          (fun output => output.addresses.contains addr) with
      | none => simp [hne]
      | some n => simp [hne]
  · intro history addr t hl
    rw [getPrev_last history addr t hl]
    cases hf : t.outputs.findIdx?
        (fun output => output.addresses.contains addr) with
    | none =>
      constructor
      · intro _ o ho
        simpa using List.findIdx?_eq_none_iff.mp hf o ho
      · intro _
        trivial
    | some n =>
      constructor
      · intro hcontra
        simp at hcontra
      · intro hall
        rcases (findIdx?_some_char _ _ _).mp hf with ⟨⟨a, ha, hpa⟩, _⟩
        have hmem : a ∈ t.outputs := List.getElem?_mem ha
        have hfalse := hall a hmem
        have hpa' : a.addresses.contains addr = true := hpa
        rw [hfalse] at hpa'
        exact absurd hpa' (by simp)
  · intro env dto e hval hprev
    rw [sendBtc_prev_error hval hprev]
    refine ⟨rfl, ?_⟩
    intro tx hmem
    rcases List.mem_append.mp hmem with hmem | hmem
    · exact absurd (mem_feeLookupCalls hmem) (by simp)
    · simp at hmem

/-- Witness for C5: the empty history yields the no-previous-transactions
error (and the send performs no push); a last transaction paying only a
stranger yields the previous-output-not-found error. -/
theorem btc_prior_output_failure_modes_witness :
    getPreviousTransactionHashAndOutputIndex [] "src" =
      .error .noPreviousTransactions ∧
    getPreviousTransactionHashAndOutputIndex
      [⟨"h3", [⟨["other"], 1000⟩]⟩] "src" = .error .previousOutputNotFound ∧
    ((sendBtc emptyHistoryEnv happyDto).1 = .error .noPreviousTransactions ∧
     ∀ tx, NetworkCall.pushTransaction tx ∉
       (sendBtc emptyHistoryEnv happyDto).2) := by
  refine ⟨(btc_prior_output_failure_modes.1 [] "src").mpr rfl, ?_, ?_⟩
  · refine (btc_prior_output_failure_modes.2.1 [⟨"h3", [⟨["other"], 1000⟩]⟩]
      "src" ⟨"h3", [⟨["other"], 1000⟩]⟩ (by simp)).mpr ?_
    intro o ho
    simp only [List.mem_singleton] at ho
    subst ho
    simp
  · exact btc_prior_output_failure_modes.2.2 emptyHistoryEnv happyDto
      .noPreviousTransactions
      (by simp [emptyHistoryEnv, happyEnv, happyDto])
      (by simp [emptyHistoryEnv, getPreviousTransactionHashAndOutputIndex])

/-- C6 counterexample: with a malformed recipient address and no fee
override, the BTC send does reject with the invalid-address error, but only
after calling the external fee estimator — the trace of network calls made
before the rejection is `[feeEstimator]`, not empty, because
`sendBtcDto.fee || (await this.calculateAverageFee())` runs before
`validate(toAddress)`. -/
theorem btc_send_validation_order_counterexample :
    happyEnv.validAddress noFeeDto.to_address = false ∧
    sendBtc happyEnv noFeeDto =
      (.error .incorrectRecipientAddress, [.feeEstimator]) := by
  have hval : happyEnv.validAddress noFeeDto.to_address = false := by
    simp [happyEnv, noFeeDto]
  refine ⟨hval, ?_⟩
  rw [sendBtc_invalid_recipient hval]
  simp [feeLookupCalls, noFeeDto]

/-- C6 (amended): for every malformed destination address both send
operations reject with an invalid-address failure before any explorer,
balance, RPC, or broadcast call; the account-model send and the UTXO send
with a truthy fee override make no network call at all, but the UTXO send
with an absent (or zero) fee override first calls the external fee
estimator and only then rejects. -/
theorem send_address_validation_order :
    (∀ (env : BtcEnv) (dto : SendBtcDto) (f : ℚ),
        dto.fee = some f → f ≠ 0 →
        env.validAddress dto.to_address = false →
        sendBtc env dto = (.error .incorrectRecipientAddress, [])) ∧
    (∀ (env : BtcEnv) (dto : SendBtcDto),
        env.validAddress dto.to_address = false →
        (sendBtc env dto).1 = .error .incorrectRecipientAddress ∧
        ∀ c ∈ (sendBtc env dto).2, c = NetworkCall.feeEstimator) ∧
    (∀ (env : Web3Env) (chainId : ℕ) (dto : SendWeb3Dto),
        env.isAddr dto.to_address = false →
        web3Send env chainId dto = (.error .incorrectRecipientAddress, [])) := by
  refine ⟨?_, ?_, ?_⟩
  · intro env dto f hf hf0 hval
    rw [sendBtc_invalid_recipient hval]
    simp [feeLookupCalls, hf, hf0]
  · intro env dto hval
    rw [sendBtc_invalid_recipient hval]
    exact ⟨rfl, fun c hc => mem_feeLookupCalls hc⟩
  · intro env chainId dto hval
    simp [web3Send, hval]

/-- Witness for the amended C6: a malformed recipient with a nonzero fee
override is rejected with an empty trace, and so is the account-model send. -/
theorem send_address_validation_order_witness :
    sendBtc happyEnv ⟨"pk", "bad", 1, some 2⟩ =
      (.error .incorrectRecipientAddress, []) ∧
    web3Send web3EnvW 56 ⟨"pk", "0xbad", 1, "coin", "0xcontract", none⟩ =
      (.error .incorrectRecipientAddress, []) := by
  constructor
  · exact send_address_validation_order.1 happyEnv ⟨"pk", "bad", 1, some 2⟩ 2
      rfl (by norm_num) (by simp [happyEnv])
  · exact send_address_validation_order.2.2 web3EnvW 56
      ⟨"pk", "0xbad", 1, "coin", "0xcontract", none⟩ (by simp [web3EnvW])

theorem mem_gasFeesCalls {env : Web3Env} {a : String} {dto : SendWeb3Dto}
    {c : Web3NetworkCall} (h : c ∈ (calculateEstimateGasFees env a dto).2) :
    c = .getGasPrice ∨ c = .estimateGasCall := by
  unfold calculateEstimateGasFees at h
  cases hg : dto.gas_limit with
  | none => rw [hg] at h; simpa using h
  | some g =>
    rw [hg] at h
    by_cases h0 : 0 < g
    · simp [h0] at h
      simp [h]
    · simp [h0] at h
      simpa using h

theorem tokenAtomicAmountString_natCast (a : ℚ) (d n : ℕ)
    (h : a * 10 ^ d = (n : ℚ)) : tokenAtomicAmountString a d = Nat.repr n := by
  unfold tokenAtomicAmountString tokenAtomicAmount ratToPlainString
  rw [h]
  simp

theorem tokenAtomicAmountString_eval :
    tokenAtomicAmountString (3/2 : ℚ) 6 = "1500000" := by
  rw [tokenAtomicAmountString_natCast (3/2) 6 1500000 (by norm_num)]
  rfl

theorem tokenRun :
    web3Send web3EnvW 56 tokenDto =
      (.ok "receipt1",
       [.decimalsCall, .getGasPrice, .estimateGasCall,
        .sendSignedTransaction (Web3Tx.tokenTx "0xsrc" "0xcontract" 31501
          "0xdst" "1500000")]) := by
  simp [web3Send, web3EnvW, tokenDto, calculateEstimateGasFees,
    tokenAtomicAmountString_eval]

/-- C7: in the account-model token send, the atomic amount encoded into the
transfer call data equals the human amount scaled by `10^decimals` and is
serialized without grouping or scientific notation; in particular, for
decimals 6 and human amount 3/2, the encoded atomic amount is exactly the
string `1500000`. First conjunct: every token transaction handed to the
broadcast carries exactly the scaled-amount string in its transfer call
data. Second conjunct: whenever the scaled amount is the natural number `n`,
the encoded string is `n`'s bare decimal representation. Third conjunct: the
concrete instance, whose characters are all digits (so no grouping separator
and no exponent marker occurs). -/
theorem web3_token_amount_encoding :
    (∀ (env : Web3Env) (chainId : ℕ) (dto : SendWeb3Dto) (tx : Web3Tx),
        Web3NetworkCall.sendSignedTransaction tx ∈
          (web3Send env chainId dto).2 →
        dto.type = "token" →
        tx.encodedAmount =
          some (tokenAtomicAmountString dto.amount env.decimals)) ∧
    (∀ (a : ℚ) (d n : ℕ), a * 10 ^ d = (n : ℚ) →
        tokenAtomicAmountString a d = Nat.repr n) ∧
    (tokenAtomicAmountString (3/2) 6 = "1500000" ∧
     plainDigitString (tokenAtomicAmountString (3/2) 6) = true) := by
  refine ⟨?_, tokenAtomicAmountString_natCast,
    tokenAtomicAmountString_eval, ?_⟩
  · intro env chainId dto tx htx htype
    unfold web3Send at htx
    by_cases hval : env.isAddr dto.to_address = true
    case neg =>
      rw [Bool.not_eq_true] at hval
      rw [hval] at htx
      simp at htx
    case pos =>
      rw [hval] at htx
      rw [htype] at htx
      simp only [if_true, reduceIte] at htx
      by_cases hc : env.isAddr dto.contract = true
      case neg =>
        rw [Bool.not_eq_true] at hc
        rw [hc] at htx
        simp at htx
      case pos =>
        rw [hc] at htx
        cases hps : env.sendSignedResult with
        | ok r =>
          rw [hps] at htx
          simp at htx
          rcases htx with htx | htx
          · rcases mem_gasFeesCalls htx with h | h <;> simp at h
          · subst htx; rfl
        | error m =>
          rw [hps] at htx
          simp at htx
          rcases htx with htx | htx
          · rcases mem_gasFeesCalls htx with h | h <;> simp at h
          · subst htx; rfl
  · rw [tokenAtomicAmountString_eval]
    decide

/-- Witness for C7: the concrete token run broadcasts the transfer record
whose call data carries the scaled amount string, and a second scaling
instance evaluates through the general law. -/
theorem web3_token_amount_encoding_witness :
    (Web3Tx.tokenTx "0xsrc" "0xcontract" 31501 "0xdst"
      "1500000").encodedAmount =
      some (tokenAtomicAmountString tokenDto.amount web3EnvW.decimals) ∧
    tokenAtomicAmountString 2 3 = Nat.repr 2000 := by
  constructor
  · exact web3_token_amount_encoding.1 web3EnvW 56 tokenDto
      (Web3Tx.tokenTx "0xsrc" "0xcontract" 31501 "0xdst" "1500000")
      (by rw [tokenRun]; simp) rfl
  · exact web3_token_amount_encoding.2.1 2 3 2000 (by norm_num)

/-- C8: in the account-model token send, when no gas-limit override is
supplied (the override is absent or not greater than 0), the resolved gas
limit equals `estimatedGas + floor(estimatedGas / 2)`, with `estimatedGas`
obtained from the dry-run contract transfer estimate (the estimate network
call is indeed performed). -/
theorem web3_gas_limit_estimate :
    ∀ (env : Web3Env) (amount : String) (dto : SendWeb3Dto),
      (∀ g, dto.gas_limit = some g → g = 0) →
      (calculateEstimateGasFees env amount dto).1.gasLimit =
        env.estimateGas + env.estimateGas / 2 ∧
      Web3NetworkCall.estimateGasCall ∈
        (calculateEstimateGasFees env amount dto).2 := by
  intro env amount dto hno
  unfold calculateEstimateGasFees
  cases hg : dto.gas_limit with
  | none => simp [Nat.add_comm]
  | some g =>
    have h0 := hno g hg
    subst h0
    simp [Nat.add_comm]

/-- Witness for C8: with no override and dry-run estimate 21001, the
resolved limit is 21001 + 10500. -/
theorem web3_gas_limit_estimate_witness :
    (calculateEstimateGasFees web3EnvW "1500000" tokenDto).1.gasLimit =
      web3EnvW.estimateGas + web3EnvW.estimateGas / 2 ∧
    Web3NetworkCall.estimateGasCall ∈
      (calculateEstimateGasFees web3EnvW "1500000" tokenDto).2 :=
  web3_gas_limit_estimate web3EnvW "1500000" tokenDto
    (by intro g hg; simp [tokenDto] at hg)

/-- C10: in the account-model balance operation, for every valid address
whose requested asset kind is neither `coin` nor `token`, the operation does
not fail with a validation error but returns the success-shaped result whose
`data` value is undefined (`none`): no balance is computed and no network
call is made. -/
theorem web3_balance_unknown_type :
    ∀ (env : Web3Env) (dto : BalanceWeb3Dto),
      env.isAddr dto.address = true →
      dto.type ≠ "coin" → dto.type ≠ "token" →
      web3Balance env dto = (.ok ⟨true, none⟩, []) := by
  intro env dto hval hc ht
  simp [web3Balance, hval, hc, ht]

/-- Witness for C10: asset kind `nft` on a valid address yields the
success-shaped result with no data. -/
theorem web3_balance_unknown_type_witness :
    web3Balance web3EnvW ⟨"0xsrc", "nft", "0xcontract"⟩ =
      (.ok ⟨true, none⟩, []) :=
  web3_balance_unknown_type web3EnvW ⟨"0xsrc", "nft", "0xcontract"⟩
    (by simp [web3EnvW]) (by simp) (by simp)

end CryptoWallet
